import Mathlib

/-!
# Verification of the adaptive admission-control and retry engine

Shallow embedding of the rate-limiting and failure-handling core of the
youtube-timestamp-generator repository:

* `SlidingWindow` (web/src/lib/rate-limits/sliding-window.ts): a trailing-window
  request log with prune / capacity-check / record steps.
* `AdaptiveRateLimiter` (web/src/lib/rate-limits/adaptive-rate-limiter.ts):
  dual-track window with estimated and actual token costs and an adaptive
  safety multiplier.
* `FailureTracker` and `executeWithRetry` (lib/process-video.ts): circuit
  breaker counters and the retry executor.
* `calculateBackoff` (lib/process-video.ts) with `FAILURE_CONFIG`
  (lib/constants.ts): exponential backoff with cap.

JavaScript numbers are modelled by `ℚ`, timestamps (milliseconds since epoch)
by `ℤ`, request ids by `ℕ`.  Mutable class state is passed explicitly; the
blocking `acquire` loop is modelled one check-iteration at a time: each
iteration performs exactly the prune / capacity-check / record step that the
source performs, so a trace of admission attempts is a list of such steps.
-/

/-! ## SlidingWindow (sliding-window.ts) -/

/-- One entry of `SlidingWindow.requestLog`: `{ timestamp, tokens }`. -/
structure RequestEntry where
  timestamp : ℤ
  tokens : ℚ
deriving DecidableEq, Repr

/-- `prune(now)`: keep entries with `entry.timestamp > now - windowMs`. -/
def SlidingWindow.prune (windowMs now : ℤ) (log : List RequestEntry) : List RequestEntry :=
  log.filter fun e => now - windowMs < e.timestamp

/-- `getCurrentUsage()`: sum of `tokens` over the request log. -/
def SlidingWindow.getCurrentUsage (log : List RequestEntry) : ℚ :=
  (log.map RequestEntry.tokens).sum

/-- `tryAcquire(tokens)` at instant `now`, and equally one iteration of the
`acquireInternal` loop: prune, compute usage, and if
`currentUsage + tokens <= limit` push `{ timestamp: now, tokens }` and
succeed, otherwise leave the (pruned) log unchanged and fail. -/
def SlidingWindow.tryAcquire (limit : ℚ) (windowMs now : ℤ) (tokens : ℚ)
    (log : List RequestEntry) : List RequestEntry × Bool :=
  let pruned := SlidingWindow.prune windowMs now log
  if SlidingWindow.getCurrentUsage pruned + tokens ≤ limit then
    (pruned ++ [⟨now, tokens⟩], true)
  else
    (pruned, false)

/-- One admission attempt against the window: the instant of the call and the
requested token cost. -/
structure AcquireEvent where
  time : ℤ
  tokens : ℚ
deriving DecidableEq, Repr

/-- Run a sequence of admission attempts (`tryAcquire` calls and
`acquireInternal` loop iterations) against the request log. -/
def SlidingWindow.runEvents (limit : ℚ) (windowMs : ℤ) (log : List RequestEntry)
    (evs : List AcquireEvent) : List RequestEntry :=
  evs.foldl (fun lg e => (SlidingWindow.tryAcquire limit windowMs e.time e.tokens lg).1) log

/-- `acquireInternal(tokens)` modelled one loop iteration at a time: `times`
lists the instants at which successive iterations run their capacity check.
The result is `true` iff some iteration succeeds, i.e. iff the call ever
returns. -/
def SlidingWindow.acquireLoop (limit : ℚ) (windowMs : ℤ) (tokens : ℚ) :
    List ℤ → List RequestEntry → Bool
  | [], _ => false
  | t :: ts, log =>
    let r := SlidingWindow.tryAcquire limit windowMs t tokens log
    if r.2 then true else SlidingWindow.acquireLoop limit windowMs tokens ts r.1

/-- All entries of a request log carry a nonnegative token cost. -/
def EntriesNonneg (log : List RequestEntry) : Prop :=
  ∀ e ∈ log, (0 : ℚ) ≤ e.tokens

lemma SlidingWindow.usage_nonneg (log : List RequestEntry) (h : EntriesNonneg log) :
    0 ≤ SlidingWindow.getCurrentUsage log := by
  unfold SlidingWindow.getCurrentUsage
  induction log with
  | nil => simp
  | cons e rest ih =>
    simp only [List.map_cons, List.sum_cons]
    have he : (0 : ℚ) ≤ e.tokens := h e (by simp)
    have hr : 0 ≤ (rest.map RequestEntry.tokens).sum :=
      ih (fun x hx => h x (by simp [hx]))
    linarith

lemma SlidingWindow.usage_filter_le (log : List RequestEntry) (p : RequestEntry → Bool)
    (h : EntriesNonneg log) :
    SlidingWindow.getCurrentUsage (log.filter p) ≤ SlidingWindow.getCurrentUsage log := by
  unfold SlidingWindow.getCurrentUsage
  induction log with
  | nil => simp
  | cons e rest ih =>
    have he : (0 : ℚ) ≤ e.tokens := h e (by simp)
    have hr := ih (fun x hx => h x (by simp [hx]))
    by_cases hp : p e
    · simp only [List.filter_cons, hp, List.map_cons, List.sum_cons]
      simpa using hr
    · simp only [List.filter_cons, hp, List.map_cons, List.sum_cons]
      simp only [Bool.false_eq_true, if_false]
      linarith

lemma SlidingWindow.prune_nonneg (windowMs now : ℤ) (log : List RequestEntry)
    (h : EntriesNonneg log) : EntriesNonneg (SlidingWindow.prune windowMs now log) := by
  intro e he
  exact h e (List.mem_of_mem_filter he)

lemma SlidingWindow.tryAcquire_preserves (limit : ℚ) (windowMs now : ℤ) (tokens : ℚ)
    (log : List RequestEntry) (hlog : EntriesNonneg log) (htok : 0 ≤ tokens)
    (husage : SlidingWindow.getCurrentUsage log ≤ limit) :
    EntriesNonneg (SlidingWindow.tryAcquire limit windowMs now tokens log).1 ∧
      SlidingWindow.getCurrentUsage (SlidingWindow.tryAcquire limit windowMs now tokens log).1
        ≤ limit := by
  unfold SlidingWindow.tryAcquire
  have hpn := SlidingWindow.prune_nonneg windowMs now log hlog
  have hpu : SlidingWindow.getCurrentUsage (SlidingWindow.prune windowMs now log) ≤ limit :=
    le_trans (SlidingWindow.usage_filter_le log _ hlog) husage
  by_cases hc :
      SlidingWindow.getCurrentUsage (SlidingWindow.prune windowMs now log) + tokens ≤ limit
  · simp only [hc, if_true]
    constructor
    · intro e he
      rcases List.mem_append.mp he with h1 | h1
      · exact hpn e h1
      · simp only [List.mem_singleton] at h1
        subst h1
        exact htok
    · unfold SlidingWindow.getCurrentUsage at hc ⊢
      simpa using hc
  · simp only [hc, if_false]
    exact ⟨hpn, hpu⟩

lemma SlidingWindow.runEvents_preserves (limit : ℚ) (windowMs : ℤ)
    (evs : List AcquireEvent) (log : List RequestEntry)
    (hlog : EntriesNonneg log) (husage : SlidingWindow.getCurrentUsage log ≤ limit)
    (hevs : ∀ e ∈ evs, (0 : ℚ) ≤ e.tokens) :
    EntriesNonneg (SlidingWindow.runEvents limit windowMs log evs) ∧
      SlidingWindow.getCurrentUsage (SlidingWindow.runEvents limit windowMs log evs) ≤ limit := by
  induction evs generalizing log with
  | nil => exact ⟨hlog, husage⟩
  | cons ev rest ih =>
    have hstep := SlidingWindow.tryAcquire_preserves limit windowMs ev.time ev.tokens log
      hlog (hevs ev (by simp)) husage
    have := ih (SlidingWindow.tryAcquire limit windowMs ev.time ev.tokens log).1
      hstep.1 hstep.2 (fun e he => hevs e (by simp [he]))
    simpa [SlidingWindow.runEvents] using this

/-- C1 -- Capacity invariant of SlidingWindow: starting from an empty request
log, after any sequence of admission attempts (`tryAcquire` calls and
`acquireInternal` loop iterations) with nonnegative costs, at every instant
`t` the sum of the costs of logged entries with timestamp inside the trailing
window ending at `t` is at most the configured limit; moreover a single step
records an entry exactly when current (pruned) usage plus its cost is at most
the limit. -/
theorem slidingWindow_capacity_invariant (limit : ℚ) (windowMs : ℤ)
    (evs : List AcquireEvent) (t : ℤ)
    (hlim : 0 ≤ limit) (hevs : ∀ e ∈ evs, (0 : ℚ) ≤ e.tokens) :
    SlidingWindow.getCurrentUsage
        (SlidingWindow.prune windowMs t (SlidingWindow.runEvents limit windowMs [] evs))
      ≤ limit ∧
    ∀ (now : ℤ) (tokens : ℚ) (log : List RequestEntry),
      ((SlidingWindow.tryAcquire limit windowMs now tokens log).2 = true ↔
        SlidingWindow.getCurrentUsage (SlidingWindow.prune windowMs now log) + tokens
          ≤ limit) := by
  constructor
  · have hrun := SlidingWindow.runEvents_preserves limit windowMs evs []
      (by intro e he; simp at he)
      (by simp [SlidingWindow.getCurrentUsage]; exact hlim) hevs
    exact le_trans
      (SlidingWindow.usage_filter_le (SlidingWindow.runEvents limit windowMs [] evs) _ hrun.1)
      hrun.2
  · intro now tokens log
    unfold SlidingWindow.tryAcquire
    by_cases hc :
        SlidingWindow.getCurrentUsage (SlidingWindow.prune windowMs now log) + tokens ≤ limit
    · simp [hc]
    · simp [hc]

/-- Witness for C1 at a concrete trace: limit 10, window 60000 ms, admissions
of cost 6 at t=0 and t=1 (the second is refused), observed at t=2. -/
theorem slidingWindow_capacity_invariant_witness :
    SlidingWindow.getCurrentUsage
        (SlidingWindow.prune 60000 2
          (SlidingWindow.runEvents 10 60000 [] [⟨0, 6⟩, ⟨1, 6⟩]))
      ≤ 10 :=
  (slidingWindow_capacity_invariant 10 60000 [⟨0, 6⟩, ⟨1, 6⟩] 2 (by norm_num)
    (by intro e he; simp at he; rcases he with h | h <;> simp [h])).1

lemma SlidingWindow.tryAcquire_fails_of_over_limit (limit : ℚ) (windowMs now : ℤ)
    (tokens : ℚ) (log : List RequestEntry) (hlog : EntriesNonneg log)
    (hover : limit < tokens) :
    (SlidingWindow.tryAcquire limit windowMs now tokens log).2 = false := by
  unfold SlidingWindow.tryAcquire
  have h0 : 0 ≤ SlidingWindow.getCurrentUsage (SlidingWindow.prune windowMs now log) :=
    SlidingWindow.usage_nonneg _ (SlidingWindow.prune_nonneg windowMs now log hlog)
  have hc : ¬ SlidingWindow.getCurrentUsage (SlidingWindow.prune windowMs now log) + tokens
      ≤ limit := by
    intro hle
    linarith
  simp [hc]

/-- C9 -- the `acquireInternal` loop never terminates when a single cost
exceeds the limit: for every request log with nonnegative entries and every
finite sequence of loop-iteration instants, no iteration's capacity check ever
succeeds, so `acquire` neither returns nor raises a configuration error -- it
re-sleeps forever.  (The claim, following the spec, says such a call must
surface a configuration error; the source has no such guard.) -/
theorem acquire_spins_forever_when_cost_exceeds_limit (limit : ℚ) (windowMs : ℤ)
    (tokens : ℚ) (times : List ℤ) (log : List RequestEntry)
    (hlog : EntriesNonneg log) (hover : limit < tokens) :
    SlidingWindow.acquireLoop limit windowMs tokens times log = false := by
  induction times generalizing log with
  | nil => rfl
  | cons t ts ih =>
    have hfail := SlidingWindow.tryAcquire_fails_of_over_limit limit windowMs t tokens log
      hlog hover
    have hnext : EntriesNonneg (SlidingWindow.tryAcquire limit windowMs t tokens log).1 := by
      have := SlidingWindow.tryAcquire_fails_of_over_limit limit windowMs t tokens log
        hlog hover
      unfold SlidingWindow.tryAcquire at this ⊢
      by_cases hc : SlidingWindow.getCurrentUsage (SlidingWindow.prune windowMs t log) + tokens
          ≤ limit
      · simp [hc] at this
      · simp only [hc, if_false]
        exact SlidingWindow.prune_nonneg windowMs t log hlog
    unfold SlidingWindow.acquireLoop
    simp only [hfail, Bool.false_eq_true, if_false]
    exact ih _ hnext

/-- Witness for C9 at the failing input: limit 10, window 60000 ms, empty log,
cost 11, three loop iterations -- the call has still not returned. -/
theorem acquire_spins_forever_witness :
    SlidingWindow.acquireLoop 10 60000 11 [0, 1000, 2000] [] = false :=
  acquire_spins_forever_when_cost_exceeds_limit 10 60000 11 [0, 1000, 2000] []
    (by intro e he; simp at he) (by norm_num)

/-! ## FailureTracker and executeWithRetry (process-video.ts) -/

/-- `FAILURE_CONFIG.maxConsecutiveFailures` (constants.ts). -/
def FAILURE_CONFIG.maxConsecutiveFailures : ℕ := 3

/-- `FAILURE_CONFIG.maxTotalFailures` (constants.ts). -/
def FAILURE_CONFIG.maxTotalFailures : ℕ := 5

/-- `FailureTracker` state: `{ consecutiveFailures, totalFailures }`. -/
structure FailureTracker where
  consecutiveFailures : ℕ
  totalFailures : ℕ
deriving DecidableEq, Repr

/-- A fresh tracker: both counters start at 0. -/
def FailureTracker.init : FailureTracker := ⟨0, 0⟩

/-- `recordSuccess()`: resets only the consecutive counter. -/
def FailureTracker.recordSuccess (t : FailureTracker) : FailureTracker :=
  { t with consecutiveFailures := 0 }

/-- `recordFailure(...)`: increments both counters, then returns `false`
("do not continue") iff the consecutive threshold or the total threshold is
now reached. -/
def FailureTracker.recordFailure (t : FailureTracker) : FailureTracker × Bool :=
  let t1 : FailureTracker := ⟨t.consecutiveFailures + 1, t.totalFailures + 1⟩
  if FAILURE_CONFIG.maxConsecutiveFailures ≤ t1.consecutiveFailures then (t1, false)
  else if FAILURE_CONFIG.maxTotalFailures ≤ t1.totalFailures then (t1, false)
  else (t1, true)

/-- `shouldAbort()`: consecutive or total threshold reached. -/
def FailureTracker.shouldAbort (t : FailureTracker) : Bool :=
  decide (FAILURE_CONFIG.maxConsecutiveFailures ≤ t.consecutiveFailures) ||
    decide (FAILURE_CONFIG.maxTotalFailures ≤ t.totalFailures)

/-- Apply one task outcome (`true` = success, `false` = failure) to the
tracker, ignoring the continue flag. -/
def FailureTracker.applyOutcome (t : FailureTracker) (ok : Bool) : FailureTracker :=
  if ok then t.recordSuccess else (t.recordFailure).1

/-- Apply a sequence of task outcomes to the tracker. -/
def FailureTracker.applyOutcomes (t : FailureTracker) (outcomes : List Bool) : FailureTracker :=
  outcomes.foldl FailureTracker.applyOutcome t

/-- Number of failures in a sequence of outcomes. -/
def failCount (outcomes : List Bool) : ℕ := (outcomes.filter (fun b => !b)).length

/-- Length of the trailing all-failure run of a sequence of outcomes. -/
def trailingFailRun (outcomes : List Bool) : ℕ :=
  (outcomes.reverse.takeWhile (fun b => !b)).length

/-- `executeWithRetry` consuming a list of predetermined task outcomes, one
per task invocation (the loop: check `shouldAbort`, invoke the task, on
success record and return, on failure record and stop if the tracker said not
to continue, otherwise sleep and retry).  Returns the final tracker state, the
number of task invocations, and whether a task invocation succeeded before the
outcome list was exhausted. -/
def executeWithRetry (t : FailureTracker) : List Bool → FailureTracker × ℕ × Bool
  | [] => (t, 0, false)
  | o :: rest =>
    if t.shouldAbort then (t, 0, false)
    else if o then (t.recordSuccess, 1, true)
    else
      let r := t.recordFailure
      if r.2 then
        let rec1 := executeWithRetry r.1 rest
        (rec1.1, rec1.2.1 + 1, rec1.2.2)
      else (r.1, 1, false)

lemma FailureTracker.total_eq_failCount (outcomes : List Bool) :
    (FailureTracker.applyOutcomes FailureTracker.init outcomes).totalFailures
      = failCount outcomes ∧
    (FailureTracker.applyOutcomes FailureTracker.init outcomes).consecutiveFailures
      = trailingFailRun outcomes := by
  induction outcomes using List.reverseRecOn with
  | nil => simp [FailureTracker.applyOutcomes, FailureTracker.init, failCount, trailingFailRun]
  | append_singleton l b ih =>
    have happ : FailureTracker.applyOutcomes FailureTracker.init (l ++ [b])
        = FailureTracker.applyOutcome (FailureTracker.applyOutcomes FailureTracker.init l) b := by
      simp [FailureTracker.applyOutcomes]
    cases b with
    | true =>
      constructor
      · rw [happ]
        simp [FailureTracker.applyOutcome, FailureTracker.recordSuccess, ih.1, failCount]
      · rw [happ]
        simp [FailureTracker.applyOutcome, FailureTracker.recordSuccess, trailingFailRun]
    | false =>
      constructor
      · rw [happ]
        simp only [FailureTracker.applyOutcome, Bool.false_eq_true, if_false,
          FailureTracker.recordFailure]
        split
        · simp [ih.1, failCount]
        · split
          · simp [ih.1, failCount]
          · simp [ih.1, failCount]
      · rw [happ]
        simp only [FailureTracker.applyOutcome, Bool.false_eq_true, if_false,
          FailureTracker.recordFailure]
        have htail : trailingFailRun (l ++ [false]) = trailingFailRun l + 1 := by
          simp [trailingFailRun, List.takeWhile]
        split
        · simp [ih.2, htail]
        · split
          · simp [ih.2, htail]
          · simp [ih.2, htail]

/-- Several tasks run through `executeWithRetry` in sequence, sharing one
`FailureTracker` (as a job's chunk tasks and its consolidation step do).
Each task comes with its list of predetermined attempt outcomes; the result
records, per task, how many times it was invoked and whether it succeeded. -/
def execSeq (t : FailureTracker) : List (List Bool) → FailureTracker × List (ℕ × Bool)
  | [] => (t, [])
  | o :: rest =>
    let r := executeWithRetry t o
    let r2 := execSeq r.1 rest
    (r2.1, (r.2.1, r.2.2) :: r2.2)

lemma executeWithRetry_aborted (t : FailureTracker) (outcomes : List Bool)
    (h : t.shouldAbort = true) : (executeWithRetry t outcomes).2.1 = 0 := by
  cases outcomes with
  | nil => rfl
  | cons o rest => simp [executeWithRetry, h]

/-- C3 -- Circuit breaker thresholds: (1) after any sequence of recorded
successes and failures the tracker reports abort exactly when the trailing
run of consecutive failures has reached 3 or the total number of failures has
reached 5 (a success resets only the consecutive counter); (2) from a fresh
tracker, three consecutive task failures make `executeWithRetry` stop after
exactly 3 task invocations, whatever outcomes would have followed; (3) with
failures interspersed with successes sharing one tracker (six tasks that each
fail once then succeed, so every success resets the consecutive counter), the
breaker still trips at the fifth total failure: the fifth task's first
failure aborts it, the tracker then reports abort, and the sixth task is
never invoked; (4) once the tracker reports abort, `executeWithRetry` never
invokes the task again. -/
theorem circuitBreaker_thresholds :
    (∀ outcomes : List Bool,
      ((FailureTracker.applyOutcomes FailureTracker.init outcomes).shouldAbort = true ↔
        3 ≤ trailingFailRun outcomes ∨ 5 ≤ failCount outcomes)) ∧
    (∀ rest : List Bool,
      (executeWithRetry FailureTracker.init (false :: false :: false :: rest)).2.1 = 3) ∧
    (execSeq FailureTracker.init
        [[false, true], [false, true], [false, true], [false, true], [false, true],
          [false, true]]
      = (⟨1, 5⟩, [(2, true), (2, true), (2, true), (2, true), (1, false), (0, false)]) ∧
      (FailureTracker.shouldAbort ⟨1, 5⟩) = true) ∧
    (∀ (t : FailureTracker) (outcomes : List Bool),
      t.shouldAbort = true → (executeWithRetry t outcomes).2.1 = 0) := by
  refine ⟨?_, ?_, ⟨by decide, by decide⟩, executeWithRetry_aborted⟩
  · intro outcomes
    have h := FailureTracker.total_eq_failCount outcomes
    unfold FailureTracker.shouldAbort
    rw [h.1, h.2]
    simp [FAILURE_CONFIG.maxConsecutiveFailures, FAILURE_CONFIG.maxTotalFailures]
  · intro rest
    rfl

/-- Witness for C3 at concrete inputs: three straight failures trip the
breaker, and a tripped tracker gets zero further task invocations. -/
theorem circuitBreaker_thresholds_witness :
    (FailureTracker.applyOutcomes FailureTracker.init [false, false, false]).shouldAbort
        = true ∧
      (executeWithRetry ⟨3, 3⟩ [false]).2.1 = 0 :=
  ⟨(circuitBreaker_thresholds.1 [false, false, false]).mpr (Or.inl (by decide)),
    circuitBreaker_thresholds.2.2.2 ⟨3, 3⟩ [false] (by decide)⟩

/-- `FAILURE_CONFIG.baseRetryDelayMs` (constants.ts). -/
def FAILURE_CONFIG.baseRetryDelayMs : ℚ := 1000

/-- `FAILURE_CONFIG.maxRetryDelayMs` (constants.ts). -/
def FAILURE_CONFIG.maxRetryDelayMs : ℚ := 60000

/-- `FAILURE_CONFIG.backoffMultiplier` (constants.ts). -/
def FAILURE_CONFIG.backoffMultiplier : ℚ := 2

/-- `calculateBackoff(attempt, error)`.  `geminiDelayMs` is the value of
`extractRetryDelay(error)` (0 when no error is passed or no "retry in XXs"
hint parses, in which case the source skips the server-suggested branch);
`jitterRand` models `randomInt(1000) / 1000`. -/
def calculateBackoff (geminiDelayMs jitterRand : ℚ) (attempt : ℕ) : ℚ :=
  if 0 < geminiDelayMs then
    min geminiDelayMs FAILURE_CONFIG.maxRetryDelayMs
  else
    let exponentialDelay :=
      FAILURE_CONFIG.baseRetryDelayMs * FAILURE_CONFIG.backoffMultiplier ^ attempt
    let jitter := jitterRand * exponentialDelay * (1 / 10)
    min (exponentialDelay + jitter) FAILURE_CONFIG.maxRetryDelayMs

/-- C7 -- Backoff monotonicity and cap: with the jitter draw fixed to 0 and
no server-suggested delay in the error, `calculateBackoff` is non-decreasing
in the attempt number and never exceeds the configured maximum retry delay of
60000 ms, for every attempt number. -/
theorem calculateBackoff_monotone_and_capped (attempt : ℕ) :
    calculateBackoff 0 0 attempt ≤ calculateBackoff 0 0 (attempt + 1) ∧
      calculateBackoff 0 0 attempt ≤ 60000 := by
  unfold calculateBackoff
  simp only [lt_irrefl, if_false, zero_mul, mul_zero, add_zero]
  constructor
  · apply min_le_min _ le_rfl
    have h2 : (FAILURE_CONFIG.backoffMultiplier : ℚ) ^ attempt
        ≤ FAILURE_CONFIG.backoffMultiplier ^ (attempt + 1) := by
      apply pow_le_pow_right₀
      · norm_num [FAILURE_CONFIG.backoffMultiplier]
      · omega
    have hbase : (0 : ℚ) ≤ FAILURE_CONFIG.baseRetryDelayMs := by
      norm_num [FAILURE_CONFIG.baseRetryDelayMs]
    exact mul_le_mul_of_nonneg_left h2 hbase
  · exact le_trans (min_le_right _ _) (by norm_num [FAILURE_CONFIG.maxRetryDelayMs])

/-! ## AdaptiveRateLimiter (adaptive-rate-limiter.ts) -/

/-- One entry of `AdaptiveRateLimiter.window`: timestamp, request id,
estimated tokens (the safety-inflated value recorded at admission), and the
actual tokens (`null` until `recordActual` fills them in). -/
structure TokenEntry where
  timestamp : ℤ
  requestId : ℕ
  estimated : ℚ
  actual : Option ℚ
deriving DecidableEq, Repr

/-- `RateLimiterConfig`: `tpm` and `rpm` are required, the rest optional with
defaults applied by the constructor via `??`. -/
structure RateLimiterConfig where
  tpm : ℚ
  rpm : ℚ
  initialSafetyMultiplier : Option ℚ
  minSafetyMultiplier : Option ℚ
  maxSafetyMultiplier : Option ℚ
  bufferPercent : Option ℚ
deriving DecidableEq, Repr

/-- The immutable fields the constructor computes:
`tpmLimit = Math.floor(tpm * (1 - bufferPercent))` and
`rpmLimit = Math.max(1, rpm - 1)`, plus the multiplier bounds. -/
structure AdaptiveRateLimiter where
  tpmLimit : ℚ
  rpmLimit : ℚ
  minSafetyMultiplier : ℚ
  maxSafetyMultiplier : ℚ
deriving DecidableEq, Repr

/-- The mutable fields: the entry window, the current safety multiplier, and
the bounded accuracy history. -/
structure ARLState where
  window : List TokenEntry
  safetyMultiplier : ℚ
  accuracyHistory : List ℚ
deriving DecidableEq, Repr

/-- Modelled on the spec's wording for C2 only: "a configurable buffer
percentage subtracted from the nominal limit". -/
def specBufferedLimit (nominal bufferPercent : ℚ) : ℚ :=
  nominal * (1 - bufferPercent)

/-- The `AdaptiveRateLimiter` constructor (immutable part). -/
def mkLimiter (c : RateLimiterConfig) : AdaptiveRateLimiter :=
  let bufferPercent := c.bufferPercent.getD (1 / 10)
  { tpmLimit := ((Int.floor (c.tpm * (1 - bufferPercent)) : ℤ) : ℚ)
    rpmLimit := max 1 (c.rpm - 1)
    minSafetyMultiplier := c.minSafetyMultiplier.getD 1
    maxSafetyMultiplier := c.maxSafetyMultiplier.getD (5 / 2) }

/-- The `AdaptiveRateLimiter` constructor (mutable part): empty window, empty
accuracy history, `safetyMultiplier = config.initialSafetyMultiplier ?? 1.2`. -/
def initState (c : RateLimiterConfig) : ARLState :=
  { window := []
    safetyMultiplier := c.initialSafetyMultiplier.getD (6 / 5)
    accuracyHistory := [] }

/-- `windowMs` (fixed at one minute). -/
def AdaptiveRateLimiter.windowMs : ℤ := 60000

/-- `accuracyHistorySize` (fixed at 20). -/
def AdaptiveRateLimiter.accuracyHistorySize : ℕ := 20

/-- `pruneWindow()`: keep entries with `entry.timestamp > now - windowMs`. -/
def AdaptiveRateLimiter.pruneWindow (now : ℤ) (w : List TokenEntry) : List TokenEntry :=
  w.filter fun e => now - AdaptiveRateLimiter.windowMs < e.timestamp

/-- `entry.actual ?? entry.estimated`: `??` falls back only on `null`, so a
recorded actual of 0 contributes 0. -/
def entryCost (e : TokenEntry) : ℚ :=
  e.actual.getD e.estimated

/-- `getWindowUsage()`: `tokensUsed` sums `entry.actual ?? entry.estimated`;
`requestsUsed` is the window length. -/
def AdaptiveRateLimiter.getWindowUsage (w : List TokenEntry) : ℚ × ℕ :=
  ((w.map entryCost).sum, w.length)

/-- One successful-or-failed check iteration of `acquireInternal`:
`safeEstimate = Math.ceil(estimatedTokens * safetyMultiplier)`; prune; admit
iff `tokensUsed + safeEstimate <= tpmLimit` and
`requestsUsed + 1 <= rpmLimit`, recording the entry with `actual: null`. -/
def AdaptiveRateLimiter.acquireStep (lim : AdaptiveRateLimiter) (st : ARLState)
    (now : ℤ) (requestId : ℕ) (estimatedTokens : ℚ) : ARLState × Bool :=
  let safeEstimate : ℚ := ((Int.ceil (estimatedTokens * st.safetyMultiplier) : ℤ) : ℚ)
  let w := AdaptiveRateLimiter.pruneWindow now st.window
  let usage := AdaptiveRateLimiter.getWindowUsage w
  if usage.1 + safeEstimate ≤ lim.tpmLimit ∧ (usage.2 : ℚ) + 1 ≤ lim.rpmLimit then
    ({ st with window := w ++ [⟨now, requestId, safeEstimate, none⟩] }, true)
  else
    ({ st with window := w }, false)

/-- `this.window.find((e) => e.requestId === requestId)`. -/
def AdaptiveRateLimiter.findEntry (w : List TokenEntry) (requestId : ℕ) : Option TokenEntry :=
  w.find? fun e => e.requestId == requestId

/-- In-place mutation `entry.actual = actualTokens` of the entry `find`
returned: update the first entry whose `requestId` matches. -/
def AdaptiveRateLimiter.setActual (requestId : ℕ) (actualTokens : ℚ) :
    List TokenEntry → List TokenEntry
  | [] => []
  | e :: rest =>
    if e.requestId == requestId then { e with actual := some actualTokens } :: rest
    else e :: AdaptiveRateLimiter.setActual requestId actualTokens rest

/-- Math.max over a nonempty list (`Math.max(...recent)`). -/
def listMax : List ℚ → ℚ
  | [] => 0
  | x :: xs => xs.foldl max x

/-- `adaptSafetyMultiplier()`: needs at least 5 accuracy samples; takes the
last 10 (`slice(-10)`), targets `max(recent) * 1.1`, moves 20% of the way
toward the target, and clamps to the configured bounds. -/
def AdaptiveRateLimiter.adaptSafetyMultiplier (lim : AdaptiveRateLimiter)
    (hist : List ℚ) (m : ℚ) : ℚ :=
  if hist.length < 5 then m
  else
    let recent := hist.drop (hist.length - 10)
    let targetMultiplier := listMax recent * (11 / 10)
    let newMultiplier := m + (targetMultiplier - m) * (1 / 5)
    max lim.minSafetyMultiplier (min lim.maxSafetyMultiplier newMultiplier)

/-- `recordActual(requestId, actualTokens)`: no-op when no entry matches;
otherwise set the entry's `actual`, compute
`accuracy = actualTokens / (entry.estimated / safetyMultiplier)` against the
CURRENT safety multiplier, push it onto the history (shifting when the
history exceeds 20 entries), then adapt the multiplier. -/
def AdaptiveRateLimiter.recordActual (lim : AdaptiveRateLimiter) (st : ARLState)
    (requestId : ℕ) (actualTokens : ℚ) : ARLState :=
  match AdaptiveRateLimiter.findEntry st.window requestId with
  | none => st
  | some entry =>
    let rawEstimate := entry.estimated / st.safetyMultiplier
    let accuracy := actualTokens / rawEstimate
    let hist1 := st.accuracyHistory ++ [accuracy]
    let hist2 :=
      if AdaptiveRateLimiter.accuracyHistorySize < hist1.length then hist1.drop 1 else hist1
    { window := AdaptiveRateLimiter.setActual requestId actualTokens st.window
      safetyMultiplier := AdaptiveRateLimiter.adaptSafetyMultiplier lim hist2 st.safetyMultiplier
      accuracyHistory := hist2 }

/-- `reset()`: clears the window and history and hard-codes the multiplier
back to 1.2. -/
def AdaptiveRateLimiter.resetState : ARLState :=
  { window := [], safetyMultiplier := 6 / 5, accuracyHistory := [] }

/-- The operations that touch an `AdaptiveRateLimiter`'s mutable state. -/
inductive ARLOp where
  | record (requestId : ℕ) (actualTokens : ℚ) : ARLOp
  | acq (now : ℤ) (requestId : ℕ) (estimatedTokens : ℚ) : ARLOp
  | reset : ARLOp
deriving DecidableEq, Repr

/-- Apply one operation to the state. -/
def applyARLOp (lim : AdaptiveRateLimiter) (st : ARLState) : ARLOp → ARLState
  | .record rid a => AdaptiveRateLimiter.recordActual lim st rid a
  | .acq now rid est => (AdaptiveRateLimiter.acquireStep lim st now rid est).1
  | .reset => AdaptiveRateLimiter.resetState

/-- Run a sequence of operations. -/
def runARL (lim : AdaptiveRateLimiter) (st : ARLState) (ops : List ARLOp) : ARLState :=
  ops.foldl (applyARLOp lim) st

/-- A configuration with all optional fields at their defaults. -/
def cfgC2 : RateLimiterConfig := ⟨1000, 20, none, none, none, some (1 / 10)⟩

/-- C2 counterexample -- at `tpm = 1000, rpm = 20, bufferPercent = 0.1` the
constructor yields `rpmLimit = max(1, 20 - 1) = 19`, while the nominal RPM
limit reduced by the buffer percentage would be `20 * (1 - 0.1) = 18`: the
RPM limit is NOT reduced by the configured buffer percentage. -/
theorem mkLimiter_rpm_ignores_buffer :
    (mkLimiter cfgC2).rpmLimit = 19 ∧ specBufferedLimit cfgC2.rpm (1 / 10) = 18 ∧
      (mkLimiter cfgC2).rpmLimit ≠ specBufferedLimit cfgC2.rpm (1 / 10) := by
  refine ⟨?_, by norm_num [specBufferedLimit, cfgC2], ?_⟩
  · show max 1 ((20 : ℚ) - 1) = 19
    norm_num
  · show max 1 ((20 : ℚ) - 1) ≠ _
    norm_num [specBufferedLimit, cfgC2]

/-- C2 amended -- the constructor subtracts the configured buffer percentage
(default 10%) from the nominal TPM limit, `tpmLimit = floor(tpm * (1 -
bufferPercent))`, but reduces the RPM limit by a fixed single request,
`rpmLimit = max(1, rpm - 1)`, independent of the buffer percentage. -/
theorem mkLimiter_effective_limits (c : RateLimiterConfig) :
    (mkLimiter c).tpmLimit
        = ((Int.floor (specBufferedLimit c.tpm (c.bufferPercent.getD (1 / 10))) : ℤ) : ℚ) ∧
      (mkLimiter c).rpmLimit = max 1 (c.rpm - 1) :=
  ⟨rfl, rfl⟩

/-- C10 -- `recordActual` with a request id matching no window entry is a
no-op on the whole observable state: window, accuracy history, and safety
multiplier are all unchanged (and nothing is raised; the source only logs a
warning and returns). -/
theorem recordActual_unknown_id_noop (lim : AdaptiveRateLimiter) (st : ARLState)
    (requestId : ℕ) (actualTokens : ℚ)
    (h : AdaptiveRateLimiter.findEntry st.window requestId = none) :
    AdaptiveRateLimiter.recordActual lim st requestId actualTokens = st := by
  unfold AdaptiveRateLimiter.recordActual
  rw [h]

/-- Witness for C10: recording an actual for id 7 against a window holding
only id 3 leaves the state untouched. -/
theorem recordActual_unknown_id_noop_witness :
    AdaptiveRateLimiter.recordActual ⟨900, 9, 1, 5 / 2⟩
        ⟨[⟨0, 3, 4, none⟩], 6 / 5, []⟩ 7 100
      = ⟨[⟨0, 3, 4, none⟩], 6 / 5, []⟩ :=
  recordActual_unknown_id_noop ⟨900, 9, 1, 5 / 2⟩ ⟨[⟨0, 3, 4, none⟩], 6 / 5, []⟩ 7 100
    (by simp [AdaptiveRateLimiter.findEntry, List.find?])

lemma findEntry_split (l1 l2 : List TokenEntry) (e : TokenEntry) (rid : ℕ)
    (h1 : ∀ x ∈ l1, (x.requestId == rid) = false) (he : (e.requestId == rid) = true) :
    AdaptiveRateLimiter.findEntry (l1 ++ e :: l2) rid = some e := by
  induction l1 with
  | nil => simp [AdaptiveRateLimiter.findEntry, List.find?, he]
  | cons x rest ih =>
    have hx : (x.requestId == rid) = false := h1 x (by simp)
    have := ih (fun y hy => h1 y (by simp [hy]))
    simpa [AdaptiveRateLimiter.findEntry, List.find?, hx] using this

lemma setActual_split (l1 l2 : List TokenEntry) (e : TokenEntry) (rid : ℕ) (a : ℚ)
    (h1 : ∀ x ∈ l1, (x.requestId == rid) = false) (he : (e.requestId == rid) = true) :
    AdaptiveRateLimiter.setActual rid a (l1 ++ e :: l2)
      = l1 ++ { e with actual := some a } :: l2 := by
  induction l1 with
  | nil => simp [AdaptiveRateLimiter.setActual, he]
  | cons x rest ih =>
    have hx : (x.requestId == rid) = false := h1 x (by simp)
    have := ih (fun y hy => h1 y (by simp [hy]))
    simp [AdaptiveRateLimiter.setActual, hx, this]

/-- C6 -- Actual-over-estimate accounting: if the window is
`l1 ++ e :: l2` where `e` is the first entry with the given request id, then
after `recordActual(requestId, a)` the window is the same list with `e`'s
`actual` set to `a`, and `getWindowUsage` totals `a` for that entry -- even
when `a = 0` -- while every entry with no recorded actual still contributes
its estimate (`entryCost` is the estimate exactly when `actual` is unset). -/
theorem getWindowUsage_actual_over_estimate (lim : AdaptiveRateLimiter) (st : ARLState)
    (rid : ℕ) (a : ℚ) (l1 l2 : List TokenEntry) (e : TokenEntry)
    (hw : st.window = l1 ++ e :: l2)
    (h1 : ∀ x ∈ l1, (x.requestId == rid) = false)
    (he : (e.requestId == rid) = true) :
    (AdaptiveRateLimiter.recordActual lim st rid a).window
        = l1 ++ { e with actual := some a } :: l2 ∧
      (AdaptiveRateLimiter.getWindowUsage
          (AdaptiveRateLimiter.recordActual lim st rid a).window).1
        = (l1.map entryCost).sum + a + (l2.map entryCost).sum ∧
      ∀ x : TokenEntry, x.actual = none → entryCost x = x.estimated := by
  have hfind : AdaptiveRateLimiter.findEntry st.window rid = some e := by
    rw [hw]; exact findEntry_split l1 l2 e rid h1 he
  have hset : AdaptiveRateLimiter.setActual rid a st.window
      = l1 ++ { e with actual := some a } :: l2 := by
    rw [hw]; exact setActual_split l1 l2 e rid a h1 he
  have hwin : (AdaptiveRateLimiter.recordActual lim st rid a).window
      = l1 ++ { e with actual := some a } :: l2 := by
    unfold AdaptiveRateLimiter.recordActual
    rw [hfind]
    simpa using hset
  refine ⟨hwin, ?_, ?_⟩
  · rw [hwin]
    unfold AdaptiveRateLimiter.getWindowUsage
    simp only [List.map_append, List.map_cons, List.sum_append, List.sum_cons]
    have : entryCost { e with actual := some a } = a := by simp [entryCost]
    rw [this]
    ring
  · intro x hx
    simp [entryCost, hx]

/-- Witness for C6 with a recorded actual of 0: the updated entry contributes
0 while the untouched pending entry keeps contributing its estimate 50. -/
theorem getWindowUsage_actual_over_estimate_witness :
    (AdaptiveRateLimiter.recordActual ⟨900, 9, 1, 5 / 2⟩
          ⟨[⟨0, 3, 40, none⟩, ⟨1, 4, 50, none⟩], 6 / 5, []⟩ 3 0).window
        = [⟨0, 3, 40, some 0⟩, ⟨1, 4, 50, none⟩] ∧
      (AdaptiveRateLimiter.getWindowUsage
          (AdaptiveRateLimiter.recordActual ⟨900, 9, 1, 5 / 2⟩
              ⟨[⟨0, 3, 40, none⟩, ⟨1, 4, 50, none⟩], 6 / 5, []⟩ 3 0).window).1
        = 50 := by
  have h := getWindowUsage_actual_over_estimate ⟨900, 9, 1, 5 / 2⟩
    ⟨[⟨0, 3, 40, none⟩, ⟨1, 4, 50, none⟩], 6 / 5, []⟩ 3 0 [] [⟨1, 4, 50, none⟩]
    ⟨0, 3, 40, none⟩ rfl (by intro x hx; simp at hx) rfl
  refine ⟨by simpa using h.1, ?_⟩
  rw [h.2.1]
  norm_num [entryCost]

/-- A configuration whose initial safety multiplier (3) exceeds its maximum
(the default 2.5). -/
def cfgC4 : RateLimiterConfig := ⟨1000, 10, some 3, none, none, none⟩

/-- C4 counterexample -- the constructor never clamps the initial multiplier:
with `initialSafetyMultiplier = 3` and the default
`maxSafetyMultiplier = 2.5`, the multiplier already lies outside
`[min, max]` before the first adaptation (before any `recordActual`). -/
theorem initial_multiplier_escapes_bounds :
    (mkLimiter cfgC4).maxSafetyMultiplier < (initState cfgC4).safetyMultiplier := by
  show (5 / 2 : ℚ) < 3
  norm_num

lemma adaptSafetyMultiplier_bounds (lim : AdaptiveRateLimiter) (hist : List ℚ) (m : ℚ)
    (hm_lo : lim.minSafetyMultiplier ≤ m) (hm_hi : m ≤ lim.maxSafetyMultiplier)
    (hminmax : lim.minSafetyMultiplier ≤ lim.maxSafetyMultiplier) :
    lim.minSafetyMultiplier ≤ lim.adaptSafetyMultiplier hist m ∧
      lim.adaptSafetyMultiplier hist m ≤ lim.maxSafetyMultiplier := by
  unfold AdaptiveRateLimiter.adaptSafetyMultiplier
  by_cases hlen : hist.length < 5
  · simp [hlen, hm_lo, hm_hi]
  · simp only [hlen, if_false]
    constructor
    · exact le_max_left _ _
    · exact max_le hminmax (min_le_left _ _)

lemma applyARLOp_multiplier_bounds (lim : AdaptiveRateLimiter) (st : ARLState) (op : ARLOp)
    (hm_lo : lim.minSafetyMultiplier ≤ st.safetyMultiplier)
    (hm_hi : st.safetyMultiplier ≤ lim.maxSafetyMultiplier)
    (hr_lo : lim.minSafetyMultiplier ≤ 6 / 5) (hr_hi : (6 / 5 : ℚ) ≤ lim.maxSafetyMultiplier) :
    lim.minSafetyMultiplier ≤ (applyARLOp lim st op).safetyMultiplier ∧
      (applyARLOp lim st op).safetyMultiplier ≤ lim.maxSafetyMultiplier := by
  have hminmax : lim.minSafetyMultiplier ≤ lim.maxSafetyMultiplier := le_trans hr_lo hr_hi
  cases op with
  | record rid a =>
    simp only [applyARLOp]
    unfold AdaptiveRateLimiter.recordActual
    cases hfind : AdaptiveRateLimiter.findEntry st.window rid with
    | none => exact ⟨hm_lo, hm_hi⟩
    | some entry =>
      simp only []
      exact adaptSafetyMultiplier_bounds lim _ st.safetyMultiplier hm_lo hm_hi hminmax
  | acq now rid est =>
    simp only [applyARLOp]
    unfold AdaptiveRateLimiter.acquireStep
    by_cases hc :
        (AdaptiveRateLimiter.getWindowUsage
            (AdaptiveRateLimiter.pruneWindow now st.window)).1 +
            ((Int.ceil (est * st.safetyMultiplier) : ℤ) : ℚ) ≤ lim.tpmLimit ∧
          (((AdaptiveRateLimiter.getWindowUsage
              (AdaptiveRateLimiter.pruneWindow now st.window)).2 : ℚ)) + 1 ≤ lim.rpmLimit
    · simp only [hc, if_true]
      exact ⟨hm_lo, hm_hi⟩
    · simp only [hc, if_false]
      exact ⟨hm_lo, hm_hi⟩
  | reset =>
    simp only [applyARLOp, AdaptiveRateLimiter.resetState]
    exact ⟨hr_lo, hr_hi⟩

/-- C4 amended -- the safety multiplier stays inside
`[minSafetyMultiplier, maxSafetyMultiplier]` under every sequence of
operations (recordActual with arbitrary accuracy ratios, admissions, reset),
including before the first adaptation and after reset, PROVIDED the
configured initial multiplier lies inside the bounds and the hard-coded
reset value 1.2 lies inside the bounds (both hold for the defaults); without
those provisos the claim fails (see the counterexample: the constructor and
`reset()` never clamp). -/
theorem safetyMultiplier_bounds (c : RateLimiterConfig) (ops : List ARLOp)
    (hinit_lo : (mkLimiter c).minSafetyMultiplier ≤ (initState c).safetyMultiplier)
    (hinit_hi : (initState c).safetyMultiplier ≤ (mkLimiter c).maxSafetyMultiplier)
    (hreset_lo : (mkLimiter c).minSafetyMultiplier ≤ 6 / 5)
    (hreset_hi : (6 / 5 : ℚ) ≤ (mkLimiter c).maxSafetyMultiplier) :
    (mkLimiter c).minSafetyMultiplier
        ≤ (runARL (mkLimiter c) (initState c) ops).safetyMultiplier ∧
      (runARL (mkLimiter c) (initState c) ops).safetyMultiplier
        ≤ (mkLimiter c).maxSafetyMultiplier := by
  have main : ∀ (ops : List ARLOp) (st : ARLState),
      (mkLimiter c).minSafetyMultiplier ≤ st.safetyMultiplier →
      st.safetyMultiplier ≤ (mkLimiter c).maxSafetyMultiplier →
      (mkLimiter c).minSafetyMultiplier
          ≤ (runARL (mkLimiter c) st ops).safetyMultiplier ∧
        (runARL (mkLimiter c) st ops).safetyMultiplier
          ≤ (mkLimiter c).maxSafetyMultiplier := by
    intro ops
    induction ops with
    | nil => intro st h1 h2; exact ⟨h1, h2⟩
    | cons op rest ih =>
      intro st h1 h2
      have hstep := applyARLOp_multiplier_bounds (mkLimiter c) st op h1 h2 hreset_lo hreset_hi
      have := ih (applyARLOp (mkLimiter c) st op) hstep.1 hstep.2
      simpa [runARL] using this
  exact main ops (initState c) hinit_lo hinit_hi

/-- Witness for C4 at the default configuration (`min=1`, `initial=1.2`,
`max=2.5`) and a concrete operation sequence including a reset. -/
theorem safetyMultiplier_bounds_witness :
    (mkLimiter ⟨1000, 10, none, none, none, none⟩).minSafetyMultiplier
        ≤ (runARL (mkLimiter ⟨1000, 10, none, none, none, none⟩)
            (initState ⟨1000, 10, none, none, none, none⟩)
            [ARLOp.acq 0 1 3, ARLOp.record 1 7, ARLOp.reset]).safetyMultiplier ∧
      (runARL (mkLimiter ⟨1000, 10, none, none, none, none⟩)
          (initState ⟨1000, 10, none, none, none, none⟩)
          [ARLOp.acq 0 1 3, ARLOp.record 1 7, ARLOp.reset]).safetyMultiplier
        ≤ (mkLimiter ⟨1000, 10, none, none, none, none⟩).maxSafetyMultiplier :=
  safetyMultiplier_bounds ⟨1000, 10, none, none, none, none⟩
    [ARLOp.acq 0 1 3, ARLOp.record 1 7, ARLOp.reset]
    (by show (1 : ℚ) ≤ 6 / 5; norm_num) (by show (6 / 5 : ℚ) ≤ 5 / 2; norm_num)
    (by show (1 : ℚ) ≤ 6 / 5; norm_num) (by show (6 / 5 : ℚ) ≤ 5 / 2; norm_num)


lemma findEntry_pruneWindow_none (now : ℤ) (w : List TokenEntry) (rid : ℕ)
    (h : AdaptiveRateLimiter.findEntry w rid = none) :
    AdaptiveRateLimiter.findEntry (AdaptiveRateLimiter.pruneWindow now w) rid = none := by
  unfold AdaptiveRateLimiter.findEntry at h ⊢
  rw [List.find?_eq_none] at h ⊢
  intro x hx
  exact h x (List.mem_of_mem_filter hx)

lemma recordActual_found_eq (lim : AdaptiveRateLimiter) (st : ARLState) (rid : ℕ) (a : ℚ)
    (e : TokenEntry) (hfind : AdaptiveRateLimiter.findEntry st.window rid = some e) :
    AdaptiveRateLimiter.recordActual lim st rid a =
      { window := AdaptiveRateLimiter.setActual rid a st.window
        safetyMultiplier := AdaptiveRateLimiter.adaptSafetyMultiplier lim
          (if AdaptiveRateLimiter.accuracyHistorySize
              < (st.accuracyHistory ++ [a / (e.estimated / st.safetyMultiplier)]).length
            then (st.accuracyHistory ++ [a / (e.estimated / st.safetyMultiplier)]).drop 1
            else st.accuracyHistory ++ [a / (e.estimated / st.safetyMultiplier)])
          st.safetyMultiplier
        accuracyHistory :=
          if AdaptiveRateLimiter.accuracyHistorySize
              < (st.accuracyHistory ++ [a / (e.estimated / st.safetyMultiplier)]).length
            then (st.accuracyHistory ++ [a / (e.estimated / st.safetyMultiplier)]).drop 1
            else st.accuracyHistory ++ [a / (e.estimated / st.safetyMultiplier)] } := by
  unfold AdaptiveRateLimiter.recordActual
  rw [hfind]

/-- C5 amended -- the ratio appended by `recordActual` immediately after an
admission with raw estimate `E` is `A / (ceil(E * m) / m)`, where `m` is the
safety multiplier (unchanged here between admission and recording): the
stored estimate is the CEILED inflated value `ceil(E * m)` and it is divided
by the multiplier current at `recordActual` time, so the appended ratio
equals `A / E` only when `E * m` is already an integer (and, in general runs,
only when the multiplier has not changed in between, since the division
always uses the current multiplier). -/
theorem recordActual_accuracy_formula (lim : AdaptiveRateLimiter) (st : ARLState)
    (now : ℤ) (rid : ℕ) (est a : ℚ)
    (hnone : AdaptiveRateLimiter.findEntry st.window rid = none)
    (hok : (AdaptiveRateLimiter.acquireStep lim st now rid est).2 = true)
    (hlen : st.accuracyHistory.length < 20) :
    (AdaptiveRateLimiter.recordActual lim
        (AdaptiveRateLimiter.acquireStep lim st now rid est).1 rid a).accuracyHistory
      = st.accuracyHistory
          ++ [a / (((Int.ceil (est * st.safetyMultiplier) : ℤ) : ℚ) / st.safetyMultiplier)] := by
  simp only [AdaptiveRateLimiter.acquireStep] at hok ⊢
  split at hok
  case isTrue hc =>
    rw [if_pos hc]
    have hfind :
        AdaptiveRateLimiter.findEntry
            ({ st with window := AdaptiveRateLimiter.pruneWindow now st.window
                ++ [⟨now, rid, ((Int.ceil (est * st.safetyMultiplier) : ℤ) : ℚ), none⟩]
               } : ARLState).window rid
          = some ⟨now, rid, ((Int.ceil (est * st.safetyMultiplier) : ℤ) : ℚ), none⟩ := by
      show AdaptiveRateLimiter.findEntry
          (AdaptiveRateLimiter.pruneWindow now st.window
            ++ [⟨now, rid, ((Int.ceil (est * st.safetyMultiplier) : ℤ) : ℚ), none⟩]) rid
        = _
      have hpruned := findEntry_pruneWindow_none now st.window rid hnone
      unfold AdaptiveRateLimiter.findEntry at hpruned ⊢
      rw [List.find?_append, hpruned]
      simp [List.find?]
    rw [recordActual_found_eq lim _ rid a _ hfind]
    have hnoshift :
        ¬ (AdaptiveRateLimiter.accuracyHistorySize
            < (({ st with window := AdaptiveRateLimiter.pruneWindow now st.window
                  ++ [⟨now, rid, ((Int.ceil (est * st.safetyMultiplier) : ℤ) : ℚ), none⟩]
                } : ARLState).accuracyHistory
                ++ [a / ((⟨now, rid, ((Int.ceil (est * st.safetyMultiplier) : ℤ) : ℚ),
                    none⟩ : TokenEntry).estimated
                  / ({ st with window := AdaptiveRateLimiter.pruneWindow now st.window
                      ++ [⟨now, rid, ((Int.ceil (est * st.safetyMultiplier) : ℤ) : ℚ), none⟩]
                    } : ARLState).safetyMultiplier)]).length) := by
      show ¬ (AdaptiveRateLimiter.accuracyHistorySize < (st.accuracyHistory ++ [_]).length)
      simp only [List.length_append, List.length_cons, List.length_nil,
        AdaptiveRateLimiter.accuracyHistorySize]
      omega
    show (if _ then _ else _) = _
    rw [if_neg hnoshift]
  case isFalse hc =>
    simp at hok

/-- Witness for C5's amended statement: a fresh default limiter, admission of
raw estimate 3 (stored as `ceil(3 * 1.2) = 4`), then `recordActual` with
actual 3 appends `3 / (4 / 1.2)`. -/
theorem recordActual_accuracy_formula_witness :
    (AdaptiveRateLimiter.recordActual (mkLimiter ⟨1000, 10, none, none, none, none⟩)
        (AdaptiveRateLimiter.acquireStep (mkLimiter ⟨1000, 10, none, none, none, none⟩)
            (initState ⟨1000, 10, none, none, none, none⟩) 0 1 3).1 1 3).accuracyHistory
      = [(3 : ℚ)
          / (((Int.ceil ((3 : ℚ)
                * (initState ⟨1000, 10, none, none, none, none⟩).safetyMultiplier) : ℤ) : ℚ)
            / (initState ⟨1000, 10, none, none, none, none⟩).safetyMultiplier)] := by
  have hok : (AdaptiveRateLimiter.acquireStep (mkLimiter ⟨1000, 10, none, none, none, none⟩)
      (initState ⟨1000, 10, none, none, none, none⟩) 0 1 3).2 = true := by
    have hceil : ((Int.ceil ((3 : ℚ) * (6 / 5)) : ℤ) : ℚ) = 4 := by
      rw [show (3 : ℚ) * (6 / 5) = 18 / 5 by norm_num]
      rw [show (4 : ℚ) = ((4 : ℤ) : ℚ) by norm_num]
      norm_cast
      rw [Int.ceil_eq_iff]
      constructor <;> norm_num
    have hfloor : ((Int.floor ((1000 : ℚ) * (1 - 1 / 10)) : ℤ) : ℚ) = 900 := by
      rw [show (1000 : ℚ) * (1 - 1 / 10) = ((900 : ℤ) : ℚ) by norm_num, Int.floor_intCast]
      norm_num
    simp only [AdaptiveRateLimiter.acquireStep, initState, mkLimiter,
      AdaptiveRateLimiter.pruneWindow, AdaptiveRateLimiter.getWindowUsage, Option.getD,
      List.filter_nil, List.map_nil, List.sum_nil, List.length_nil]
    rw [if_pos]
    constructor
    · rw [hceil, hfloor]
      norm_num
    · norm_num
  have h := recordActual_accuracy_formula (mkLimiter ⟨1000, 10, none, none, none, none⟩)
    (initState ⟨1000, 10, none, none, none, none⟩) 0 1 3 3 rfl hok
    (by show (List.length [] < 20); simp)
  exact h

/-- C5 counterexample -- with the default configuration, admitting raw
estimate 3 (multiplier 1.2, stored estimate `ceil(3.6) = 4`) and then
recording actual cost 3 appends `3 / (4 / 1.2) = 0.9` to the accuracy
history, not `actual / raw-estimate = 3 / 3 = 1` as the claim states. -/
theorem recordActual_accuracy_is_not_actual_over_raw :
    (AdaptiveRateLimiter.recordActual (mkLimiter ⟨1000, 10, none, none, none, none⟩)
        (AdaptiveRateLimiter.acquireStep (mkLimiter ⟨1000, 10, none, none, none, none⟩)
            (initState ⟨1000, 10, none, none, none, none⟩) 0 1 3).1 1 3).accuracyHistory
      = [9 / 10] ∧ (9 / 10 : ℚ) ≠ 3 / 3 := by
  have hceil : ((Int.ceil ((3 : ℚ) * (6 / 5)) : ℤ) : ℚ) = 4 := by
    rw [show (3 : ℚ) * (6 / 5) = 18 / 5 by norm_num]
    rw [show (4 : ℚ) = ((4 : ℤ) : ℚ) by norm_num]
    norm_cast
    rw [Int.ceil_eq_iff]
    constructor <;> norm_num
  have hfloor : ((Int.floor ((1000 : ℚ) * (1 - 1 / 10)) : ℤ) : ℚ) = 900 := by
    rw [show (1000 : ℚ) * (1 - 1 / 10) = ((900 : ℤ) : ℚ) by norm_num, Int.floor_intCast]
    norm_num
  have hstep : (AdaptiveRateLimiter.acquireStep (mkLimiter ⟨1000, 10, none, none, none, none⟩)
      (initState ⟨1000, 10, none, none, none, none⟩) 0 1 3).1
      = ⟨[⟨0, 1, 4, none⟩], 6 / 5, []⟩ := by
    simp only [AdaptiveRateLimiter.acquireStep, initState, mkLimiter,
      AdaptiveRateLimiter.pruneWindow, AdaptiveRateLimiter.getWindowUsage, Option.getD,
      List.filter_nil, List.map_nil, List.sum_nil, List.length_nil]
    rw [if_pos]
    · simp [hceil]
    · constructor
      · rw [hceil, hfloor]
        norm_num
      · norm_num
  rw [hstep]
  have hfind : AdaptiveRateLimiter.findEntry
      (⟨[⟨0, 1, 4, none⟩], 6 / 5, []⟩ : ARLState).window 1
      = some ⟨0, 1, 4, none⟩ := rfl
  rw [recordActual_found_eq (mkLimiter ⟨1000, 10, none, none, none, none⟩)
    ⟨[⟨0, 1, 4, none⟩], 6 / 5, []⟩ 1 3 ⟨0, 1, 4, none⟩ hfind]
  refine ⟨?_, by norm_num⟩
  show (if AdaptiveRateLimiter.accuracyHistorySize
        < (([] : List ℚ) ++ [(3 : ℚ) / ((4 : ℚ) / (6 / 5))]).length
      then (([] : List ℚ) ++ [(3 : ℚ) / ((4 : ℚ) / (6 / 5))]).drop 1
      else ([] : List ℚ) ++ [(3 : ℚ) / ((4 : ℚ) / (6 / 5))]) = [9 / 10]
  rw [if_neg (by simp [AdaptiveRateLimiter.accuracyHistorySize])]
  show [(3 : ℚ) / ((4 : ℚ) / (6 / 5))] = [9 / 10]
  norm_num

/-! ## Chunk task ordering (process-video.ts) -/

/-- The observable actions of one attempt of the chunk task closure that
`processVideoInBackground` hands to `executeWithRetry`. -/
inductive ChunkEv where
  | estimateApi : ChunkEv
  | estimateFormula : ChunkEv
  | acquireCall : ChunkEv
  | acquireReturn : ChunkEv
  | setProcessing : ChunkEv
  | apiCall : ChunkEv
  | recordActualEv : ChunkEv
  | setCompleted : ChunkEv
  | taskThrow : ChunkEv
deriving DecidableEq, BEq, Repr

/-- The sequence of actions of one attempt of the chunk task, following the
source order: token estimate (`countChunkTokens`, falling back to the formula
on failure), then `await rateLimiter.acquire(...)`, then -- only once acquire
has resolved -- `updateChunkStatus(jobId, chunk.id, 'processing')`, then the
`analyzeChunk` call, `recordActual`, and either the completed-status update
or a throw (on analyze failure or an empty result).  If `acquire` never
resolves, the attempt's trace ends at the call. -/
def chunkAttemptTrace (estimateViaApi acquireReturns analyzeOk resultNonEmpty : Bool) :
    List ChunkEv :=
  (if estimateViaApi then [ChunkEv.estimateApi] else [ChunkEv.estimateFormula])
    ++ [ChunkEv.acquireCall]
    ++ (if acquireReturns then
        [ChunkEv.acquireReturn, ChunkEv.setProcessing, ChunkEv.apiCall]
          ++ (if analyzeOk then
              [ChunkEv.recordActualEv]
                ++ (if resultNonEmpty then [ChunkEv.setCompleted] else [ChunkEv.taskThrow])
            else [ChunkEv.taskThrow])
      else [])

/-- C8 -- Admission-before-processing ordering: in every attempt of the chunk
task, no `setProcessing` action occurs before the first return of
`rateLimiter.acquire`, and there are never more `setProcessing` actions than
successful acquire returns -- so the chunk's status is set to 'processing'
only after admission succeeds, never before. -/
theorem processing_only_after_acquire :
    ∀ estimateViaApi acquireReturns analyzeOk resultNonEmpty : Bool,
      (((chunkAttemptTrace estimateViaApi acquireReturns analyzeOk
            resultNonEmpty).takeWhile fun e => e != ChunkEv.acquireReturn).all
          fun e => e != ChunkEv.setProcessing) = true ∧
      (chunkAttemptTrace estimateViaApi acquireReturns analyzeOk resultNonEmpty).count
          ChunkEv.setProcessing
        ≤ (chunkAttemptTrace estimateViaApi acquireReturns analyzeOk resultNonEmpty).count
          ChunkEv.acquireReturn := by
  decide
